import Mathlib

/-!
Verification development for the SupplierCockpit repository: a shallow
embedding of the SQL schema/row-level-security layer, the signup trigger,
and the React form/list components (MeasurementForm, MeasurementList,
ControlPlanForm), together with theorems settling the specification's
claims about them.

JavaScript numbers are modelled as `JSNum` (NaN, ±Infinity, or a finite
rational); `jsParseFloat` embeds the semantics of the JS `parseFloat`
builtin (longest numeric prefix of the string, after leading whitespace,
with optional sign, decimal point, exponent, and the `Infinity` literal;
NaN when no numeric prefix exists). Finite values are exact rationals
rather than IEEE doubles: none of the verified properties depends on
binary rounding.
-/

/-- A JavaScript number: NaN, positive/negative infinity, or a finite value
(modelled as an exact rational). -/
inductive JSNum where
  | nan : JSNum
  | posInf : JSNum
  | negInf : JSNum
  | fin : ℚ → JSNum
deriving DecidableEq

/-- JS `a <= b` on numbers: false whenever either side is NaN. -/
def jsLe (a b : JSNum) : Bool :=
  match a, b with
  | .nan, _ => false
  | _, .nan => false
  | .negInf, _ => true
  | _, .posInf => true
  | .posInf, _ => false
  | _, .negInf => false
  | .fin x, .fin y => decide (x ≤ y)

/-- JS `a >= b` on numbers, i.e. `b <= a` (false whenever either side is NaN). -/
def jsGe (a b : JSNum) : Bool :=
  jsLe b a

/-- JS `isNaN` on a number. -/
def jsIsNaN (a : JSNum) : Bool :=
  a == JSNum.nan

/-- The whitespace characters skipped by `parseFloat` before the number
(the common ASCII subset of JS StrWhiteSpace). -/
def jsWhitespace (c : Char) : Bool :=
  c == ' ' || c == '\t' || c == '\n' || c == '\r' || c == '\x0b' || c == '\x0c'

/-- Numeric value of a decimal digit character. -/
def digVal (c : Char) : ℕ :=
  c.toNat - '0'.toNat

/-- Value of a list of decimal digit characters read left to right. -/
def digitsToNat (ds : List Char) : ℕ :=
  ds.foldl (fun a c => a * 10 + digVal c) 0

/-- Parse an exponent part `e`/`E` with optional sign and at least one digit;
returns `none` (so the caller backtracks, as `parseFloat` does) when the
exponent is malformed. -/
def parseExponent (cs : List Char) : Option ℤ :=
  match cs with
  | c :: rest =>
    if c == 'e' || c == 'E' then
      match rest with
      | s :: rest2 =>
        if s == '+' || s == '-' then
          let ds := rest2.takeWhile Char.isDigit
          if ds.isEmpty then none
          else if s == '-' then some (-(digitsToNat ds : ℤ)) else some (digitsToNat ds : ℤ)
        else
          let ds := rest.takeWhile Char.isDigit
          if ds.isEmpty then none else some (digitsToNat ds : ℤ)
      | [] => none
    else none
  | [] => none

/-- Parse the decimal mantissa `digits [. digits]` (at least one digit overall);
returns the value and the remaining characters. -/
def parseMantissa (cs : List Char) : Option (ℚ × List Char) :=
  let ip := cs.takeWhile Char.isDigit
  let r1 := cs.dropWhile Char.isDigit
  match r1 with
  | '.' :: r2 =>
    let fp := r2.takeWhile Char.isDigit
    let r3 := r2.dropWhile Char.isDigit
    if ip.isEmpty && fp.isEmpty then none
    else some ((digitsToNat ip : ℚ) + (digitsToNat fp : ℚ) / (10 : ℚ) ^ fp.length, r3)
  | _ => if ip.isEmpty then none else some ((digitsToNat ip : ℚ), r1)

/-- Parse the body after the optional sign: the `Infinity` literal or a
decimal mantissa with optional exponent. -/
def parseSignedBody (cs : List Char) (neg : Bool) : JSNum :=
  match cs with
  | 'I' :: 'n' :: 'f' :: 'i' :: 'n' :: 'i' :: 't' :: 'y' :: _ =>
    if neg then .negInf else .posInf
  | _ =>
    match parseMantissa cs with
    | none => .nan
    | some (m, rest) =>
      let v :=
        match parseExponent rest with
        | some e => m * (10 : ℚ) ^ e
        | none => m
      .fin (if neg then -v else v)

/-- The JS `parseFloat` builtin: skip leading whitespace, read an optional
sign, then the longest numeric literal; NaN when none exists. -/
def jsParseFloat (s : String) : JSNum :=
  let cs := s.data.dropWhile jsWhitespace
  match cs with
  | '-' :: rest => parseSignedBody rest true
  | '+' :: rest => parseSignedBody rest false
  | _ => parseSignedBody cs false

example : jsParseFloat "12.5" = JSNum.fin (25 / 2) := by
  simp +decide [jsParseFloat, parseSignedBody, parseMantissa, parseExponent, digitsToNat, digVal,
    jsWhitespace, List.dropWhile, List.takeWhile, List.isEmpty, List.foldl]
  norm_num

example : jsParseFloat "abc" = JSNum.nan := by
  simp +decide [jsParseFloat, parseSignedBody, parseMantissa, jsWhitespace,
    List.dropWhile, List.takeWhile, List.isEmpty]

example : jsParseFloat "" = JSNum.nan := by
  simp +decide [jsParseFloat, parseSignedBody, parseMantissa, jsWhitespace,
    List.dropWhile, List.takeWhile, List.isEmpty]

example : jsParseFloat "  -3.25e1xyz" = JSNum.fin (-65 / 2) := by
  simp +decide [jsParseFloat, parseSignedBody, parseMantissa, parseExponent, digitsToNat, digVal,
    jsWhitespace, List.dropWhile, List.takeWhile, List.isEmpty, List.foldl]
  norm_num

example : jsParseFloat "12e" = JSNum.fin 12 := by
  simp +decide [jsParseFloat, parseSignedBody, parseMantissa, parseExponent, digitsToNat, digVal,
    jsWhitespace, List.dropWhile, List.takeWhile, List.isEmpty, List.foldl]

example : jsParseFloat ".5" = JSNum.fin (1 / 2) := by
  simp +decide [jsParseFloat, parseSignedBody, parseMantissa, parseExponent, digitsToNat, digVal,
    jsWhitespace, List.dropWhile, List.takeWhile, List.isEmpty, List.foldl]
  norm_num

example : jsParseFloat "Infinity" = JSNum.posInf := by
  simp +decide [jsParseFloat, parseSignedBody, jsWhitespace, List.dropWhile]

example : jsLe (JSNum.fin 10) (JSNum.fin (999 / 100)) = false := by
  simp [jsLe]
  norm_num

example : jsGe (JSNum.fin 10) (JSNum.fin 10) = true := by
  simp [jsGe, jsLe]

/-!
Schema and row-level-security layer, embedded from the migrations
20250222100323_azure_tooth.sql (tables, RLS, the six initial policies) and
20250222100928_warm_truth.sql (the two added quality-parameter policies).
Column values of SQL type `uuid`/`text`/`timestamptz` are modelled as
strings (the policies compare them as text: `auth.uid()::text = id::text`);
`numeric` columns are modelled as `JSNum` finite rationals as they reach
the client.
-/

/-- Row of the `suppliers` table. -/
structure SupplierRow where
  id : String
  name : String
  email : String
  created_at : String
deriving DecidableEq

/-- Row of the `quality_parameters` table. -/
structure QualityParameterRow where
  id : String
  name : String
  description : Option String
  unit : String
  min_value : Option JSNum
  max_value : Option JSNum
  created_at : String
deriving DecidableEq

/-- Row of the `measurements` table. -/
structure MeasurementRow where
  id : String
  supplier_id : String
  parameter_id : String
  value : JSNum
  measured_at : String
  created_at : String
deriving DecidableEq

/-- A row of one of the three tables, for the uniform policy interface. -/
inductive Row where
  | supplier : SupplierRow → Row
  | qualityParameter : QualityParameterRow → Row
  | measurement : MeasurementRow → Row
deriving DecidableEq

/-- The three tables of the schema. -/
inductive Table where
  | suppliers : Table
  | quality_parameters : Table
  | measurements : Table
deriving DecidableEq

/-- The four SQL commands a row-level-security policy can govern. -/
inductive SqlOp where
  | select : SqlOp
  | insert : SqlOp
  | update : SqlOp
  | delete : SqlOp
deriving DecidableEq

/-- One `CREATE POLICY` statement: its table, the command it applies to,
its `USING` predicate (visibility of existing rows) and its `WITH CHECK`
predicate (admissibility of new rows). A policy with no `USING` clause
(INSERT) or no `WITH CHECK` clause (SELECT) gets the constant-true
predicate for the missing part, which RLS never consults for that command.
The predicates take the acting authenticated identity (`auth.uid()` as
text) and the row. -/
structure RlsPolicy where
  policyName : String
  table : Table
  op : SqlOp
  usingPred : String → Row → Bool
  checkPred : String → Row → Bool

/-- All policies declared by the migrations, in order of declaration. -/
def rlsPolicies : List RlsPolicy :=
  [ { policyName := "Suppliers can read own data"
      table := .suppliers
      op := .select
      usingPred := fun uid r =>
        match r with
        | .supplier s => uid == s.id
        | _ => false
      checkPred := fun _ _ => true },
    { policyName := "Quality parameters are readable by all authenticated users"
      table := .quality_parameters
      op := .select
      usingPred := fun _ _ => true
      checkPred := fun _ _ => true },
    { policyName := "Suppliers can read own measurements"
      table := .measurements
      op := .select
      usingPred := fun uid r =>
        match r with
        | .measurement m => m.supplier_id == uid
        | _ => false
      checkPred := fun _ _ => true },
    { policyName := "Suppliers can insert own measurements"
      table := .measurements
      op := .insert
      usingPred := fun _ _ => true
      checkPred := fun uid r =>
        match r with
        | .measurement m => m.supplier_id == uid
        | _ => false },
    { policyName := "Suppliers can update own measurements"
      table := .measurements
      op := .update
      usingPred := fun uid r =>
        match r with
        | .measurement m => m.supplier_id == uid
        | _ => false
      checkPred := fun uid r =>
        match r with
        | .measurement m => m.supplier_id == uid
        | _ => false },
    { policyName := "Authenticated users can insert quality parameters"
      table := .quality_parameters
      op := .insert
      usingPred := fun _ _ => true
      checkPred := fun _ _ => true },
    { policyName := "Authenticated users can update quality parameters"
      table := .quality_parameters
      op := .update
      usingPred := fun _ _ => true
      checkPred := fun _ _ => true } ]

/-- RLS semantics with RLS enabled on every table (default deny): an
authenticated identity may SELECT a row iff some SELECT policy for the
table accepts it. -/
def canSelect (t : Table) (uid : String) (r : Row) : Bool :=
  rlsPolicies.any fun p => p.table == t && p.op == SqlOp.select && p.usingPred uid r

/-- An authenticated identity may INSERT a new row iff some INSERT policy's
`WITH CHECK` accepts it. -/
def canInsert (t : Table) (uid : String) (r : Row) : Bool :=
  rlsPolicies.any fun p => p.table == t && p.op == SqlOp.insert && p.checkPred uid r

/-- An authenticated identity may UPDATE an existing row `oldRow` into
`newRow` iff some UPDATE policy's `USING` accepts the existing row and its
`WITH CHECK` accepts the updated row. -/
def canUpdate (t : Table) (uid : String) (oldRow newRow : Row) : Bool :=
  rlsPolicies.any fun p =>
    p.table == t && p.op == SqlOp.update && p.usingPred uid oldRow && p.checkPred uid newRow

/-- An authenticated identity may DELETE a row iff some DELETE policy's
`USING` accepts it. -/
def canDelete (t : Table) (uid : String) (r : Row) : Bool :=
  rlsPolicies.any fun p => p.table == t && p.op == SqlOp.delete && p.usingPred uid r

/-- The measurements rows the policy layer lets an identity see: RLS
filters every SELECT through `canSelect`. -/
def visibleMeasurements (db : List MeasurementRow) (uid : String) : List MeasurementRow :=
  db.filter fun m => canSelect .measurements uid (.measurement m)

/-!
Signup trigger and backfill, embedded from migration
20250224101636_cold_cell.sql: `handle_new_user` fires AFTER INSERT on
`auth.users` and inserts one supplier row; the trailing INSERT ... SELECT
backfills a supplier row (with `email as name`) for every pre-existing
auth user whose id has no supplier row, with ON CONFLICT (id) DO NOTHING.
-/

/-- A row of `auth.users` as the trigger and backfill read it: id, email,
and the `raw_user_meta_data->>'full_name'` field (absent metadata key gives
SQL NULL, hence `Option`). -/
structure AuthUser where
  id : String
  email : String
  raw_full_name : Option String
deriving DecidableEq

/-- The supplier row inserted by `handle_new_user` for a new auth user:
`(id, email, name) = (new.id, new.email, COALESCE(full_name, new.email))`. -/
def handle_new_user (u : AuthUser) (now : String) : SupplierRow :=
  { id := u.id
    email := u.email
    name := match u.raw_full_name with
            | some n => n
            | none => u.email
    created_at := now }

/-- Effect of the AFTER INSERT trigger on the suppliers table: the single
row built by `handle_new_user` is appended. -/
def signupTrigger (suppliers : List SupplierRow) (u : AuthUser) (now : String) :
    List SupplierRow :=
  suppliers ++ [handle_new_user u now]

/-- The supplier row built by the backfill statement for an auth user:
`SELECT id, email, email as name` (the name is always the email; the
metadata full_name is not consulted). -/
def backfillRow (u : AuthUser) (now : String) : SupplierRow :=
  { id := u.id, email := u.email, name := u.email, created_at := now }

/-- One candidate row of the backfill INSERT: skipped when the id already
had a supplier row in the pre-statement snapshot (the `WHERE id NOT IN`
subquery), skipped when a row with the id was already produced (ON
CONFLICT (id) DO NOTHING against the primary key), otherwise appended. -/
def backfillStep (orig : List SupplierRow) (now : String) (acc : List SupplierRow)
    (u : AuthUser) : List SupplierRow :=
  if orig.any fun s => s.id == u.id then acc
  else if acc.any fun s => s.id == u.id then acc
  else acc ++ [backfillRow u now]

/-- Run the backfill over the auth users in order, against the snapshot
`orig` of the suppliers table. -/
def backfillRun (orig : List SupplierRow) (now : String) :
    List AuthUser → List SupplierRow → List SupplierRow
  | [], acc => acc
  | u :: us, acc => backfillRun orig now us (backfillStep orig now acc u)

/-- The backfill statement of the migration: suppliers table afterwards. -/
def backfillSuppliers (users : List AuthUser) (suppliers : List SupplierRow)
    (now : String) : List SupplierRow :=
  backfillRun suppliers now users suppliers

/-!
MeasurementForm (src/src/components/MeasurementForm.tsx). The component
state is the two controlled inputs plus the error/success banners; the
backend is abstracted by the resolved auth user (`supabase.auth.getUser`)
and the insert outcome, and the model returns the network calls the
handler issues, in order.
-/

/-- A network request issued by a component against the backend. -/
inductive NetworkCall where
  | authGetUser : NetworkCall
  | insertMeasurement (supplier_id parameter_id : String) (value : JSNum)
      (measured_at : String) : NetworkCall
  | updateMeasurement (id : String) (value : JSNum) : NetworkCall
  | deleteMeasurement (id : String) : NetworkCall
deriving DecidableEq

/-- Local state of MeasurementForm: the controlled `selectedParameter` and
`value` inputs and the error/success banners (the transient `loading` flag,
true only while the handler runs, is not modelled). -/
structure MeasurementFormState where
  selectedParameter : String
  value : String
  error : Option String
  success : Bool
deriving DecidableEq

/-- MeasurementForm.handleSubmit: resolve the current user (a backend
call); with no user, fail with "No authenticated user" and issue no
insert; otherwise insert one measurement row with `parameter_id` the
selected parameter, `value` the `parseFloat` of the value input,
`measured_at` the submission time and `supplier_id` the user's id. On
insert failure the error is shown and the inputs are untouched; on success
the success banner is shown and both inputs are cleared. `currentUser` is
the identity `supabase.auth.getUser` resolves (none when signed out) and
`insertOutcome` the backend's verdict on the insert (`some` an error
message). -/
def handleSubmit (currentUser : Option String) (insertOutcome : Option String)
    (st : MeasurementFormState) (now : String) :
    MeasurementFormState × List NetworkCall :=
  let st0 : MeasurementFormState := { st with error := none, success := false }
  match currentUser with
  | none =>
    ({ st0 with error := some "No authenticated user" }, [.authGetUser])
  | some uid =>
    let call := NetworkCall.insertMeasurement uid st.selectedParameter
      (jsParseFloat st.value) now
    match insertOutcome with
    | some e => ({ st0 with error := some e }, [.authGetUser, call])
    | none =>
      ({ st0 with success := true, value := "", selectedParameter := "" },
        [.authGetUser, call])

/-- The browser-native required-field validation of the form: both the
parameter `<select>` and the value `<input>` carry the `required`
attribute, so the submit event does not fire (and `handleSubmit` never
runs) while either is empty. -/
def requiredFieldsFilled (st : MeasurementFormState) : Bool :=
  st.selectedParameter != "" && st.value != ""

/-- A submission of the measurement form: the native required-field
validation gates `handleSubmit`; a rejected submission changes nothing and
issues no network call. -/
def submitMeasurementForm (currentUser : Option String) (insertOutcome : Option String)
    (st : MeasurementFormState) (now : String) :
    MeasurementFormState × List NetworkCall :=
  if requiredFieldsFilled st then handleSubmit currentUser insertOutcome st now
  else (st, [])

/-!
MeasurementList (src/src/components/MeasurementList.tsx): the joined row
shape the select returns, the filter state, the server-side query the
component builds, the client-side status filter, and the inline
edit/delete handlers.
-/

/-- The nested `quality_parameters (name, unit, min_value, max_value)`
selection of the measurement list query. -/
structure QualityParameterInfo where
  name : String
  unit : String
  min_value : Option JSNum
  max_value : Option JSNum
deriving DecidableEq

/-- The `Measurement` interface of MeasurementList.tsx: one fetched row,
with joined parameter details and supplier name. -/
structure MeasurementView where
  id : String
  value : JSNum
  measured_at : String
  quality_parameters : QualityParameterInfo
  suppliers_name : String
deriving DecidableEq

/-- A measurements row as the server sees it for this query: the filter
columns `supplier_id` and `parameter_id` (used by `.eq`, not selected)
together with the selected and joined columns. -/
structure DbMeasurementJoined where
  id : String
  supplier_id : String
  parameter_id : String
  value : JSNum
  measured_at : String
  quality_parameters : QualityParameterInfo
  suppliers_name : String
deriving DecidableEq

/-- Projection of a server row onto the selected columns (the shape the
client receives). -/
def projectView (r : DbMeasurementJoined) : MeasurementView :=
  { id := r.id
    value := r.value
    measured_at := r.measured_at
    quality_parameters := r.quality_parameters
    suppliers_name := r.suppliers_name }

/-- The status filter dropdown: 'all' | 'within' | 'outside'. -/
inductive StatusFilter where
  | all : StatusFilter
  | within : StatusFilter
  | outside : StatusFilter
deriving DecidableEq

/-- The `Filter` interface of MeasurementList.tsx; the date and parameter
fields are strings whose empty value means "not set". -/
structure ListFilters where
  startDate : String
  endDate : String
  parameter : String
  status : StatusFilter
deriving DecidableEq

/-- The server-side query loadMeasurements builds: base query restricted
by `.eq('supplier_id', user.id)` and `.order('measured_at', descending)`,
with optional `.gte`/`.lte` bounds on `measured_at` and an optional
`.eq('parameter_id', _)`. -/
structure MeasurementsQuery where
  eqSupplierId : String
  orderMeasuredAtDescending : Bool
  gteMeasuredAt : Option String
  lteMeasuredAt : Option String
  eqParameterId : Option String
deriving DecidableEq

/-- Query construction of loadMeasurements: each filter clause is chained
onto the query only when the corresponding filter string is non-empty
(JS truthiness of a string). -/
def buildMeasurementsQuery (uid : String) (f : ListFilters) : MeasurementsQuery :=
  let q0 : MeasurementsQuery :=
    { eqSupplierId := uid
      orderMeasuredAtDescending := true
      gteMeasuredAt := none
      lteMeasuredAt := none
      eqParameterId := none }
  let q1 := if f.startDate != "" then { q0 with gteMeasuredAt := some f.startDate } else q0
  let q2 := if f.endDate != "" then { q1 with lteMeasuredAt := some f.endDate } else q1
  if f.parameter != "" then { q2 with eqParameterId := some f.parameter } else q2

/-- Whether a server row satisfies every predicate of the query
(`eq` is text equality, `gte`/`lte` are the inclusive timestamp bounds;
ISO-8601 timestamp strings compare lexicographically in time order). -/
def rowMatchesQuery (q : MeasurementsQuery) (r : DbMeasurementJoined) : Bool :=
  r.supplier_id == q.eqSupplierId
    && (match q.gteMeasuredAt with
        | none => true
        | some d => decide (d ≤ r.measured_at))
    && (match q.lteMeasuredAt with
        | none => true
        | some d => decide (r.measured_at ≤ d))
    && (match q.eqParameterId with
        | none => true
        | some pid => r.parameter_id == pid)

/-- Descending order on `measured_at` (the `.order` clause of the query). -/
def measuredDesc (a b : DbMeasurementJoined) : Prop :=
  b.measured_at ≤ a.measured_at

instance : DecidableRel measuredDesc :=
  fun a b => inferInstanceAs (Decidable (b.measured_at ≤ a.measured_at))

instance : IsTotal DbMeasurementJoined measuredDesc :=
  ⟨fun a b => le_total b.measured_at a.measured_at⟩

instance : IsTrans DbMeasurementJoined measuredDesc :=
  ⟨fun _ _ _ h1 h2 => le_trans h2 h1⟩

/-- Server evaluation of the query: keep the rows every predicate accepts,
ordered by `measured_at` descending. -/
def runMeasurementsQuery (db : List DbMeasurementJoined) (q : MeasurementsQuery) :
    List DbMeasurementJoined :=
  let rows := db.filter (rowMatchesQuery q)
  if q.orderMeasuredAtDescending then rows.insertionSort measuredDesc else rows

/-- The `isWithinLimits` expression of the client-side status filter in
loadMeasurements (MeasurementList.tsx lines 103-107):
`(min_value === null || value >= min_value) && (max_value === null || value <= max_value)`. -/
def statusFilterWithin (m : MeasurementView) : Bool :=
  (match m.quality_parameters.min_value with
   | none => true
   | some mn => jsGe m.value mn)
    && (match m.quality_parameters.max_value with
        | none => true
        | some mx => jsLe m.value mx)

/-- The `isWithinLimits` expression computed per row for the status badge
(MeasurementList.tsx lines 272-276); textually the same expression as the
one in the status filter. -/
def badgeIsWithinLimits (m : MeasurementView) : Bool :=
  (match m.quality_parameters.min_value with
   | none => true
   | some mn => jsGe m.value mn)
    && (match m.quality_parameters.max_value with
        | none => true
        | some mx => jsLe m.value mx)

/-- Local state of MeasurementList. -/
structure MeasurementListState where
  measurements : List MeasurementView
  error : Option String
  editingId : Option String
  editValue : String
  updateSuccess : Bool
  deletingId : Option String
deriving DecidableEq

/-- loadMeasurements: resolve the user (error when none), run the built
query server-side, then — only when the status filter is not 'all' —
filter the fetched rows client-side by the `isWithinLimits` ternary.
`queryOutcome` is the backend's verdict on the select (`some` an error
message leaves the list untouched). -/
def loadMeasurements (db : List DbMeasurementJoined) (currentUser : Option String)
    (queryOutcome : Option String) (f : ListFilters) (st : MeasurementListState) :
    MeasurementListState :=
  match currentUser with
  | none => { st with error := some "No authenticated user" }
  | some uid =>
    match queryOutcome with
    | some e => { st with error := some e }
    | none =>
      let q := buildMeasurementsQuery uid f
      let data := (runMeasurementsQuery db q).map projectView
      let filteredData :=
        if f.status != StatusFilter.all then
          data.filter fun m =>
            let isWithinLimits := statusFilterWithin m
            if f.status == StatusFilter.within then isWithinLimits else !isWithinLimits
        else data
      { st with measurements := filteredData }

/-- handleUpdate (inline edit save): `parseFloat` the edit buffer; when the
result is NaN, throw the validation message before any network call;
otherwise issue an update restricted to the row id and, on success, set
the success flag and replace the value of the matching row in local state
(the delayed edit-state reset of the `setTimeout` is not modelled). On
backend failure the error is shown and local state is untouched. -/
def handleUpdate (backendOutcome : Option String) (st : MeasurementListState)
    (m : MeasurementView) : MeasurementListState × List NetworkCall :=
  let newValue := jsParseFloat st.editValue
  if jsIsNaN newValue then
    ({ st with error := some "Please enter a valid number" }, [])
  else
    match backendOutcome with
    | some e => ({ st with error := some e }, [.updateMeasurement m.id newValue])
    | none =>
      ({ st with
          updateSuccess := true
          measurements := st.measurements.map fun x =>
            if x.id == m.id then { x with value := newValue } else x },
        [.updateMeasurement m.id newValue])

/-- handleDelete (the commit step of the confirm-then-commit interaction):
issue a delete restricted to the row id; on success drop the row from
local state and clear the pending-delete marker; on backend failure show
the error and leave local state untouched. -/
def handleDelete (backendOutcome : Option String) (st : MeasurementListState)
    (id : String) : MeasurementListState × List NetworkCall :=
  match backendOutcome with
  | some e => ({ st with error := some e }, [.deleteMeasurement id])
  | none =>
    ({ st with
        measurements := st.measurements.filter fun m => m.id != id
        deletingId := none },
      [.deleteMeasurement id])

/-!
Spec-side definition used for the refinement claim about "within limits",
and concrete sample data used by witnesses.
-/

/-- The specification's wording of "within limits" over exact rationals:
"(no min_value configured, or value ≥ min_value) AND (no max_value
configured, or value ≤ max_value) — bounds are inclusive". -/
def specWithinLimits (minv maxv : Option ℚ) (v : ℚ) : Prop :=
  (minv = none ∨ ∃ mn, minv = some mn ∧ v ≥ mn) ∧
    (maxv = none ∨ ∃ mx, maxv = some mx ∧ v ≤ mx)

/-- A fetched measurement row with the given configured bounds and value
(the other fields are irrelevant to the status computation). -/
def viewWithBounds (minv maxv : Option ℚ) (v : ℚ) : MeasurementView :=
  { id := "m1"
    value := .fin v
    measured_at := "2025-03-01T10:00:00Z"
    quality_parameters :=
      { name := "thickness"
        unit := "mm"
        min_value := minv.map JSNum.fin
        max_value := maxv.map JSNum.fin }
    suppliers_name := "Acme" }

/-- C1: the row-level-security policies permit select, insert, and update
on a measurements row exactly when the row's `supplier_id` equals the
acting identity's id (for update, both the existing and the updated row);
hence every measurements row the policy layer returns to a supplier has
`supplier_id` equal to that supplier's identity, and no permitted insert
or update produces a row owned by a different identity. -/
theorem measurements_policy_owner_invariant :
    ∀ (uid : String) (m : MeasurementRow),
      (canSelect Table.measurements uid (Row.measurement m) = true ↔ m.supplier_id = uid) ∧
      (canInsert Table.measurements uid (Row.measurement m) = true ↔ m.supplier_id = uid) ∧
      (∀ m2 : MeasurementRow,
        canUpdate Table.measurements uid (Row.measurement m) (Row.measurement m2) = true ↔
          (m.supplier_id = uid ∧ m2.supplier_id = uid)) ∧
      (∀ db : List MeasurementRow, ∀ r ∈ visibleMeasurements db uid, r.supplier_id = uid) := by
  intro uid m
  have hsel : ∀ m' : MeasurementRow,
      canSelect Table.measurements uid (Row.measurement m') = true ↔ m'.supplier_id = uid := by
    intro m'
    simp +decide [canSelect, rlsPolicies]
  refine ⟨hsel m, ?_, ?_, ?_⟩
  · simp +decide [canInsert, rlsPolicies]
  · intro m2
    simp +decide [canUpdate, rlsPolicies]
  · intro db r hr
    rw [visibleMeasurements, List.mem_filter] at hr
    exact (hsel r).mp hr.2

/-- Sample measurement row owned by identity "u1". -/
def mRowU1 : MeasurementRow :=
  { id := "m1"
    supplier_id := "u1"
    parameter_id := "p1"
    value := .fin 5
    measured_at := "2025-03-01T10:00:00Z"
    created_at := "2025-03-01T10:00:00Z" }

/-- Witness for C1 at identity "u1" and a concrete owned row: the select,
insert and update permissions evaluate to true, and the row is returned by
the policy layer with its own supplier_id. -/
theorem measurements_policy_owner_invariant_witness :
    canSelect Table.measurements "u1" (Row.measurement mRowU1) = true ∧
      canInsert Table.measurements "u1" (Row.measurement mRowU1) = true ∧
      canUpdate Table.measurements "u1" (Row.measurement mRowU1) (Row.measurement mRowU1) = true ∧
      mRowU1.supplier_id = "u1" := by
  obtain ⟨h1, h2, h3, h4⟩ := measurements_policy_owner_invariant "u1" mRowU1
  exact ⟨h1.mpr rfl, h2.mpr rfl, (h3 mRowU1).mpr ⟨rfl, rfl⟩,
    h4 [mRowU1] mRowU1 (by simp [visibleMeasurements, List.mem_filter, canSelect, rlsPolicies, mRowU1])⟩

/-- C4: the schema declares no DELETE policy on measurements, so with RLS
enabled no delete of a measurements row is ever permitted, for any
identity and any row — even though the measurement list's delete handler
does issue a delete restricted to the row id against that table. -/
theorem measurements_delete_never_permitted :
    ∀ (uid : String) (m : MeasurementRow),
      canDelete Table.measurements uid (Row.measurement m) = false ∧
      ∀ (backendOutcome : Option String) (st : MeasurementListState) (id : String),
        (handleDelete backendOutcome st id).2 = [NetworkCall.deleteMeasurement id] := by
  intro uid m
  constructor
  · simp +decide [canDelete, rlsPolicies]
  · intro backendOutcome st id
    cases backendOutcome <;> rfl

/-- C2: for every fetched measurement with finite value and finite (or
absent) configured bounds, the status computed by the measurement list —
the same `isWithinLimits` expression in the client-side status filter and
in the displayed status badge — is "within limits" exactly when (min_value
is null or value ≥ min_value) and (max_value is null or value ≤ max_value);
in particular with min 10 and max 20 the values 10 and 20 are within
limits while 9.99 and 20.01 are outside, and with min null only the upper
bound constrains. -/
theorem within_limits_classification :
    (∀ (m : MeasurementView) (minv maxv : Option ℚ) (v : ℚ),
        m.value = .fin v →
        m.quality_parameters.min_value = minv.map JSNum.fin →
        m.quality_parameters.max_value = maxv.map JSNum.fin →
        (statusFilterWithin m = true ↔ specWithinLimits minv maxv v)) ∧
      badgeIsWithinLimits = statusFilterWithin ∧
      statusFilterWithin (viewWithBounds (some 10) (some 20) 10) = true ∧
      statusFilterWithin (viewWithBounds (some 10) (some 20) 20) = true ∧
      statusFilterWithin (viewWithBounds (some 10) (some 20) (999 / 100)) = false ∧
      statusFilterWithin (viewWithBounds (some 10) (some 20) (2001 / 100)) = false ∧
      (∀ (maxq v : ℚ),
        statusFilterWithin (viewWithBounds none (some maxq) v) = true ↔ v ≤ maxq) := by
  have hgen : ∀ (m : MeasurementView) (minv maxv : Option ℚ) (v : ℚ),
      m.value = .fin v →
      m.quality_parameters.min_value = minv.map JSNum.fin →
      m.quality_parameters.max_value = maxv.map JSNum.fin →
      (statusFilterWithin m = true ↔ specWithinLimits minv maxv v) := by
    intro m minv maxv v hv hmin hmax
    rw [statusFilterWithin, hv, hmin, hmax]
    cases minv <;> cases maxv <;>
      simp [specWithinLimits, jsGe, jsLe, ge_iff_le]
  refine ⟨hgen, ?_, ?_, ?_, ?_, ?_, ?_⟩
  · funext m
    rfl
  · rw [hgen (viewWithBounds (some 10) (some 20) 10) (some 10) (some 20) 10 rfl rfl rfl]
    simp [specWithinLimits]
    norm_num
  · rw [hgen (viewWithBounds (some 10) (some 20) 20) (some 10) (some 20) 20 rfl rfl rfl]
    simp [specWithinLimits]
    norm_num
  · rw [Bool.eq_false_iff]
    intro hcon
    rw [hgen (viewWithBounds (some 10) (some 20) (999 / 100)) (some 10) (some 20) (999 / 100)
      rfl rfl rfl] at hcon
    have := hcon.1
    simp [specWithinLimits] at this
    norm_num at this
  · rw [Bool.eq_false_iff]
    intro hcon
    rw [hgen (viewWithBounds (some 10) (some 20) (2001 / 100)) (some 10) (some 20) (2001 / 100)
      rfl rfl rfl] at hcon
    have := hcon.2
    simp [specWithinLimits] at this
    norm_num at this
  · intro maxq v
    rw [hgen (viewWithBounds none (some maxq) v) none (some maxq) v rfl rfl rfl]
    simp [specWithinLimits]

/-- Witness for C2: the classification holds at the concrete parameter
with min 10 and max 20 and the concrete value 10. -/
theorem within_limits_classification_witness :
    statusFilterWithin (viewWithBounds (some 10) (some 20) 10) = true ∧
      specWithinLimits (some 10) (some 20) 10 :=
  ⟨within_limits_classification.2.2.1,
    (within_limits_classification.1 (viewWithBounds (some 10) (some 20) 10)
          (some 10) (some 20) 10 rfl rfl rfl).mp
      within_limits_classification.2.2.1⟩

/-- Rows already accumulated survive the rest of the backfill run (the
statement only appends). -/
theorem backfillRun_mem_mono :
    ∀ (users : List AuthUser) (orig acc : List SupplierRow) (now : String)
      (s : SupplierRow), s ∈ acc → s ∈ backfillRun orig now users acc := by
  intro users
  induction users with
  | nil => intro orig acc now s hs; exact hs
  | cons u us ih =>
    intro orig acc now s hs
    rw [backfillRun]
    apply ih
    rw [backfillStep]
    by_cases h1 : (orig.any fun s => s.id == u.id) = true
    · rw [if_pos h1]; exact hs
    · rw [if_neg h1]
      by_cases h2 : (acc.any fun s => s.id == u.id) = true
      · rw [if_pos h2]; exact hs
      · rw [if_neg h2]; exact List.mem_append_left _ hs

/-- Every auth user whose id has no supplier row in the snapshot ends up
with a supplier row of its id after the backfill run. -/
theorem backfillRun_covers :
    ∀ (users : List AuthUser) (orig acc : List SupplierRow) (now : String)
      (u : AuthUser), u ∈ users → (∀ s ∈ orig, s.id ≠ u.id) →
      ∃ s ∈ backfillRun orig now users acc, s.id = u.id := by
  intro users
  induction users with
  | nil => intro orig acc now u hu; exact absurd hu (List.not_mem_nil u)
  | cons v vs ih =>
    intro orig acc now u hu horig
    rcases List.mem_cons.mp hu with heq | htail
    · subst heq
      rw [backfillRun]
      have h1 : (orig.any fun s => s.id == u.id) = false := by
        rw [List.any_eq_false]
        intro s hs
        simpa using horig s hs
      by_cases h2 : (acc.any fun s => s.id == u.id) = true
      · rcases List.any_eq_true.mp h2 with ⟨s, hs, hsid⟩
        exact ⟨s, backfillRun_mem_mono vs orig _ now s
          (by rw [backfillStep, h1]; simp only [Bool.false_eq_true, if_false]; rw [if_pos h2]; exact hs),
          by simpa using hsid⟩
      · refine ⟨backfillRow u now, backfillRun_mem_mono vs orig _ now _ ?_, rfl⟩
        rw [backfillStep, h1]
        simp only [Bool.false_eq_true, if_false]
        rw [if_neg h2]
        exact List.mem_append_right _ (List.mem_singleton.mpr rfl)
    · exact ih orig _ now u htail horig

/-- Provenance of the backfill run: every row of the result was already
accumulated or is the backfill row (name = email) of some listed auth user
whose id had no supplier row in the snapshot. -/
theorem backfillRun_provenance :
    ∀ (users : List AuthUser) (orig acc : List SupplierRow) (now : String),
      ∀ s ∈ backfillRun orig now users acc,
        s ∈ acc ∨ ∃ u ∈ users, s = backfillRow u now ∧ ∀ s' ∈ orig, s'.id ≠ u.id := by
  intro users
  induction users with
  | nil => intro orig acc now s hs; exact Or.inl hs
  | cons v vs ih =>
    intro orig acc now s hs
    rw [backfillRun] at hs
    rcases ih orig _ now s hs with hacc | ⟨u, hu, hrow, hfresh⟩
    · rw [backfillStep] at hacc
      by_cases h1 : (orig.any fun s => s.id == v.id) = true
      · rw [if_pos h1] at hacc; exact Or.inl hacc
      · rw [if_neg h1] at hacc
        by_cases h2 : (acc.any fun s => s.id == v.id) = true
        · rw [if_pos h2] at hacc; exact Or.inl hacc
        · rw [if_neg h2] at hacc
          rcases List.mem_append.mp hacc with hacc' | hnew
          · exact Or.inl hacc'
          · refine Or.inr ⟨v, List.mem_cons_self v vs, List.mem_singleton.mp hnew, ?_⟩
            intro s' hs'
            have := List.any_eq_false.mp (Bool.not_eq_true _ ▸ h1) s' hs'
            simpa using this
    · exact Or.inr ⟨u, List.mem_cons_of_mem v hu, hrow, hfresh⟩

/-- The backfill run never introduces a duplicate supplier id: the WHERE
filter and the ON CONFLICT (id) DO NOTHING guard keep the id column
duplicate-free. -/
theorem backfillRun_nodup :
    ∀ (users : List AuthUser) (orig acc : List SupplierRow) (now : String),
      (acc.map SupplierRow.id).Nodup →
      ((backfillRun orig now users acc).map SupplierRow.id).Nodup := by
  intro users
  induction users with
  | nil => intro orig acc now h; exact h
  | cons v vs ih =>
    intro orig acc now h
    rw [backfillRun]
    apply ih
    rw [backfillStep]
    by_cases h1 : (orig.any fun s => s.id == v.id) = true
    · rw [if_pos h1]; exact h
    · rw [if_neg h1]
      by_cases h2 : (acc.any fun s => s.id == v.id) = true
      · rw [if_pos h2]; exact h
      · rw [if_neg h2]
        rw [List.map_append, List.nodup_append]
        refine ⟨h, List.nodup_singleton _, ?_⟩
        intro i hi hcontra
        rcases List.mem_map.mp hi with ⟨s, hs, hsid⟩
        rw [List.map_singleton] at hcontra
        have : i = (backfillRow v now).id := List.mem_singleton.mp hcontra
        subst this
        have := List.any_eq_false.mp (Bool.not_eq_true _ ▸ h2) s hs
        simp [backfillRow] at hsid
        exact absurd hsid (by simpa using this)

/-- The auth user of the counterexample: a pre-existing identity whose
metadata provides a full_name. -/
def authUserBob : AuthUser :=
  { id := "u2", email := "bob@example.com", raw_full_name := some "Bob Smith" }

/-- Counterexample to C3 as stated: for a pre-existing identity whose
metadata carries a full_name, the backfill statement does not insert "the
same row" as the trigger — the trigger names the supplier by the metadata
full_name, the backfill always by the email. -/
theorem signup_backfill_not_same_row :
    backfillSuppliers [authUserBob] [] "t0" =
        [{ id := "u2", name := "bob@example.com", email := "bob@example.com",
            created_at := "t0" }] ∧
      handle_new_user authUserBob "t0" =
        { id := "u2", name := "Bob Smith", email := "bob@example.com", created_at := "t0" } ∧
      backfillSuppliers [authUserBob] [] "t0" ≠ [handle_new_user authUserBob "t0"] := by
  refine ⟨rfl, rfl, ?_⟩
  intro h
  simp [backfillSuppliers, backfillRun, backfillStep, backfillRow, handle_new_user,
    authUserBob] at h

/-- C3 (amended): the trigger inserts exactly one Supplier row whose id
and email are the identity's and whose name is the metadata full_name when
present, otherwise the email; the backfill statement inserts, for every
pre-existing identity lacking a supplier row, one row with the identity's
id and email whose name is always the email (the metadata is not
consulted), skips on conflict, and after it runs each identity still has
at most one supplier row. -/
theorem signup_provisioning :
    ∀ (u : AuthUser) (now : String),
      ((handle_new_user u now).id = u.id ∧
        (handle_new_user u now).email = u.email ∧
        (∀ n, u.raw_full_name = some n → (handle_new_user u now).name = n) ∧
        (u.raw_full_name = none → (handle_new_user u now).name = u.email)) ∧
      (∀ suppliers : List SupplierRow,
        (∀ s ∈ suppliers, s.id ≠ u.id) →
          ((signupTrigger suppliers u now).countP fun s => s.id == u.id) = 1) ∧
      (∀ (users : List AuthUser) (suppliers : List SupplierRow),
        (u ∈ users → (∀ s ∈ suppliers, s.id ≠ u.id) →
          ∃ s ∈ backfillSuppliers users suppliers now, s.id = u.id) ∧
        (∀ s ∈ backfillSuppliers users suppliers now,
          s ∈ suppliers ∨
            ∃ v ∈ users, s = backfillRow v now ∧ ∀ s' ∈ suppliers, s'.id ≠ v.id) ∧
        ((suppliers.map SupplierRow.id).Nodup →
          ((backfillSuppliers users suppliers now).map SupplierRow.id).Nodup)) := by
  intro u now
  refine ⟨⟨rfl, rfl, ?_, ?_⟩, ?_, ?_⟩
  · intro n hn
    simp [handle_new_user, hn]
  · intro hn
    simp [handle_new_user, hn]
  · intro suppliers hfresh
    rw [signupTrigger, List.countP_append]
    have h0 : (suppliers.countP fun s => s.id == u.id) = 0 := by
      rw [List.countP_eq_zero]
      intro s hs
      simpa using hfresh s hs
    have h1 : (([handle_new_user u now]).countP fun s => s.id == u.id) = 1 := by
      simp [handle_new_user]
    rw [h0, h1]
  · intro users suppliers
    exact ⟨fun hu hfresh => backfillRun_covers users suppliers suppliers now u hu hfresh,
      fun s hs => backfillRun_provenance users suppliers suppliers now s hs,
      fun hnd => backfillRun_nodup users suppliers suppliers now hnd⟩

/-- Witness for C3 (amended) at a concrete fresh identity with full_name
metadata and an empty suppliers table: the trigger row carries the
metadata name, the trigger leaves exactly one row with the identity's id,
and the backfill of that identity produces a duplicate-free table covering
the id. -/
theorem signup_provisioning_witness :
    (handle_new_user authUserBob "t0").name = "Bob Smith" ∧
      (((signupTrigger [] authUserBob "t0").countP fun s => s.id == authUserBob.id) = 1) ∧
      (∃ s ∈ backfillSuppliers [authUserBob] [] "t0", s.id = authUserBob.id) ∧
      ((backfillSuppliers [authUserBob] [] "t0").map SupplierRow.id).Nodup := by
  obtain ⟨⟨_, _, hname, _⟩, htrig, hback⟩ := signup_provisioning authUserBob "t0"
  obtain ⟨hcov, _, hnodup⟩ := hback [authUserBob] []
  exact ⟨hname "Bob Smith" rfl, htrig [] (by simp),
    hcov (by simp) (by simp), hnodup (by simp)⟩

/-- C5: a submission of the measurement form with no quality parameter
selected is rejected by the required-field validation before the handler
runs: the form state is unchanged and no network call — neither the
identity resolution nor an insert — is issued. -/
theorem empty_parameter_rejected_before_network :
    ∀ (currentUser : Option String) (insertOutcome : Option String)
      (st : MeasurementFormState) (now : String),
      st.selectedParameter = "" →
      submitMeasurementForm currentUser insertOutcome st now = (st, []) := by
  intro currentUser insertOutcome st now h
  simp [submitMeasurementForm, requiredFieldsFilled, h]

/-- Form state with no parameter selected and a value typed. -/
def formStNoParam : MeasurementFormState :=
  { selectedParameter := "", value := "5", error := none, success := false }

/-- Witness for C5: the concrete submission with empty parameter id and a
signed-in user issues no network call and leaves the state unchanged. -/
theorem empty_parameter_rejected_before_network_witness :
    submitMeasurementForm (some "u1") none formStNoParam "t0" = (formStNoParam, []) :=
  empty_parameter_rejected_before_network (some "u1") none formStNoParam "t0" rfl

/-- C6: the submit handler first resolves the identity; with none it fails
with the user-facing message and issues no insert; with an identity it
issues exactly one insert whose supplier_id is the identity's id and whose
measured_at is the submission time; on success the two inputs are cleared
and the success banner shown; on failure the error message is surfaced and
the inputs are untouched. -/
theorem measurement_form_submit_behaviour :
    ∀ (insertOutcome : Option String) (st : MeasurementFormState) (now : String),
      (handleSubmit none insertOutcome st now =
        ({ st with error := some "No authenticated user", success := false },
          [NetworkCall.authGetUser])) ∧
      (∀ uid : String,
        (handleSubmit (some uid) insertOutcome st now).2 =
          [NetworkCall.authGetUser,
            NetworkCall.insertMeasurement uid st.selectedParameter (jsParseFloat st.value) now] ∧
        (insertOutcome = none →
          handleSubmit (some uid) insertOutcome st now =
            ({ st with error := none, success := true, value := "", selectedParameter := "" },
              [NetworkCall.authGetUser,
                NetworkCall.insertMeasurement uid st.selectedParameter (jsParseFloat st.value)
                  now])) ∧
        (∀ e, insertOutcome = some e →
          (handleSubmit (some uid) insertOutcome st now).1 =
            { st with error := some e, success := false })) := by
  intro insertOutcome st now
  refine ⟨rfl, ?_⟩
  intro uid
  refine ⟨?_, ?_, ?_⟩
  · cases insertOutcome <;> rfl
  · intro h
    subst h
    rfl
  · intro e h
    subst h
    rfl

/-- Form state with a parameter selected and a numeric value typed. -/
def formStFilled : MeasurementFormState :=
  { selectedParameter := "p1", value := "3.5", error := none, success := false }

/-- Witness for C6 at concrete inputs: the signed-out submission fails
with the message and only the identity-resolution call; the signed-in
successful submission issues the one insert owned by "u1" at the
submission time and clears both inputs. -/
theorem measurement_form_submit_behaviour_witness :
    handleSubmit none none formStFilled "t0" =
      ({ formStFilled with error := some "No authenticated user", success := false },
        [NetworkCall.authGetUser]) ∧
      handleSubmit (some "u1") none formStFilled "t0" =
        ({ selectedParameter := "", value := "", error := none, success := true },
          [NetworkCall.authGetUser,
            NetworkCall.insertMeasurement "u1" "p1" (jsParseFloat "3.5") "t0"]) := by
  obtain ⟨hnone, hsome⟩ := measurement_form_submit_behaviour none formStFilled "t0"
  exact ⟨hnone, (hsome "u1").2.1 rfl⟩

/-- C7: the inline-edit save handler rejects a buffer that does not parse
as a number with the validation message before any network call, leaving
the stored measurements untouched; for a buffer that parses, it issues one
update restricted to the row id and, on success, replaces exactly the
value of the rows with the matching id in local state, keeping every other
row. -/
theorem inline_edit_save_validation :
    ∀ (backendOutcome : Option String) (st : MeasurementListState) (m : MeasurementView),
      (jsParseFloat st.editValue = JSNum.nan →
        handleUpdate backendOutcome st m =
          ({ st with error := some "Please enter a valid number" }, [])) ∧
      (jsParseFloat st.editValue ≠ JSNum.nan →
        (handleUpdate backendOutcome st m).2 =
          [NetworkCall.updateMeasurement m.id (jsParseFloat st.editValue)] ∧
        (handleUpdate none st m).1.measurements =
          st.measurements.map (fun x =>
            if x.id == m.id then { x with value := jsParseFloat st.editValue } else x) ∧
        (∀ x ∈ st.measurements, x.id ≠ m.id → x ∈ (handleUpdate none st m).1.measurements)) := by
  intro backendOutcome st m
  constructor
  · intro h
    simp [handleUpdate, jsIsNaN, h]
  · intro h
    have hguard : jsIsNaN (jsParseFloat st.editValue) = false := by
      simp [jsIsNaN, h]
    refine ⟨?_, ?_, ?_⟩
    · cases backendOutcome <;> simp [handleUpdate, hguard]
    · simp [handleUpdate, hguard]
    · intro x hx hne
      simp only [handleUpdate, hguard, Bool.false_eq_true, if_false]
      refine List.mem_map.mpr ⟨x, hx, ?_⟩
      simp [hne]

/-- Witness for C7: the non-numeric buffer "abc" is rejected with the
validation message and no network call; the numeric buffer "7.25" issues
the id-restricted update. -/
theorem inline_edit_save_validation_witness :
    handleUpdate none
        { measurements := [], error := none, editingId := some "m1", editValue := "abc",
          updateSuccess := false, deletingId := none }
        (viewWithBounds none none 5) =
      ({ measurements := [], error := some "Please enter a valid number",
          editingId := some "m1", editValue := "abc", updateSuccess := false,
          deletingId := none }, []) ∧
      (handleUpdate none
          { measurements := [], error := none, editingId := some "m1", editValue := "7.25",
            updateSuccess := false, deletingId := none }
          (viewWithBounds none none 5)).2 =
        [NetworkCall.updateMeasurement "m1" (jsParseFloat "7.25")] := by
  constructor
  · exact (inline_edit_save_validation none
      { measurements := [], error := none, editingId := some "m1", editValue := "abc",
        updateSuccess := false, deletingId := none } (viewWithBounds none none 5)).1
      (by simp +decide [jsParseFloat, parseSignedBody, parseMantissa, jsWhitespace,
        List.dropWhile, List.takeWhile, List.isEmpty])
  · exact ((inline_edit_save_validation none
      { measurements := [], error := none, editingId := some "m1", editValue := "7.25",
        updateSuccess := false, deletingId := none } (viewWithBounds none none 5)).2
      (by simp +decide [jsParseFloat, parseSignedBody, parseMantissa, parseExponent,
        digitsToNat, digVal, jsWhitespace, List.dropWhile, List.takeWhile, List.isEmpty,
        List.foldl])).1

/-- C8: on a confirmed delete the handler issues one delete restricted to
the row id; on success the local list is the prior list with exactly the
rows of that id removed (every other row is kept, every kept row is from
the prior list and does not carry the id); on backend failure the error is
shown and the whole prior state — the list included — is unchanged. -/
theorem delete_commit_atomicity :
    ∀ (st : MeasurementListState) (id : String),
      ((handleDelete none st id).1.measurements =
          st.measurements.filter fun m => m.id != id) ∧
      ((handleDelete none st id).2 = [NetworkCall.deleteMeasurement id]) ∧
      (∀ x ∈ st.measurements, x.id ≠ id → x ∈ (handleDelete none st id).1.measurements) ∧
      (∀ x ∈ (handleDelete none st id).1.measurements, x.id ≠ id ∧ x ∈ st.measurements) ∧
      (∀ e, handleDelete (some e) st id =
        ({ st with error := some e }, [NetworkCall.deleteMeasurement id])) := by
  intro st id
  refine ⟨rfl, rfl, ?_, ?_, fun e => rfl⟩
  · intro x hx hne
    show x ∈ st.measurements.filter fun m => m.id != id
    rw [List.mem_filter]
    exact ⟨hx, by simp [hne]⟩
  · intro x hx
    rw [show (handleDelete none st id).1.measurements =
        st.measurements.filter fun m => m.id != id from rfl, List.mem_filter] at hx
    refine ⟨by simpa using hx.2, hx.1⟩

/-- List state holding two rows, used by the delete witness. -/
def listStTwoRows : MeasurementListState :=
  { measurements :=
      [viewWithBounds none none 5,
        { viewWithBounds none none 7 with id := "m2" }]
    error := none
    editingId := none
    editValue := ""
    updateSuccess := false
    deletingId := some "m1" }

/-- Witness for C8: deleting row "m1" from the two-row state keeps exactly
the other row on success, and a failing delete leaves the state unchanged
apart from the error message. -/
theorem delete_commit_atomicity_witness :
    (handleDelete none listStTwoRows "m1").1.measurements =
        [{ viewWithBounds none none 7 with id := "m2" }] ∧
      handleDelete (some "boom") listStTwoRows "m1" =
        ({ listStTwoRows with error := some "boom" },
          [NetworkCall.deleteMeasurement "m1"]) := by
  obtain ⟨hfilter, _, _, _, hfail⟩ := delete_commit_atomicity listStTwoRows "m1"
  refine ⟨?_, hfail "boom"⟩
  rw [hfilter]
  rfl

/-- C10 (implicit): the measurement form's submit handler performs no
client-side numeric validation — once an identity is resolved it issues
the insert with the `parseFloat` of the value input for every value
string, including NaN when the string has no numeric prefix — in contrast
to the inline-edit save handler, which rejects a NaN parse before any
network call. -/
theorem form_submit_no_numeric_validation :
    ∀ (uid : String) (insertOutcome : Option String) (st : MeasurementFormState)
      (now : String),
      ((handleSubmit (some uid) insertOutcome st now).2 =
        [NetworkCall.authGetUser,
          NetworkCall.insertMeasurement uid st.selectedParameter (jsParseFloat st.value)
            now]) ∧
      jsParseFloat "abc" = JSNum.nan ∧
      (∀ (backendOutcome : Option String) (lst : MeasurementListState)
          (m : MeasurementView),
        jsParseFloat lst.editValue = JSNum.nan → (handleUpdate backendOutcome lst m).2 = []) := by
  intro uid insertOutcome st now
  refine ⟨?_, ?_, ?_⟩
  · cases insertOutcome <;> rfl
  · simp +decide [jsParseFloat, parseSignedBody, parseMantissa, jsWhitespace,
      List.dropWhile, List.takeWhile, List.isEmpty]
  · intro backendOutcome lst m h
    simp [handleUpdate, jsIsNaN, h]

/-- Form state whose value input holds the non-numeric string "abc". -/
def formStNaN : MeasurementFormState :=
  { selectedParameter := "p1", value := "abc", error := none, success := false }

/-- Witness for C10: with the value input "abc" the submit handler still
issues the insert, carrying NaN, while the inline-edit save handler with
the buffer "abc" issues no network call. -/
theorem form_submit_no_numeric_validation_witness :
    (handleSubmit (some "u1") none formStNaN "t0").2 =
        [NetworkCall.authGetUser, NetworkCall.insertMeasurement "u1" "p1" JSNum.nan "t0"] ∧
      (handleUpdate none
          { measurements := [], error := none, editingId := some "m1", editValue := "abc",
            updateSuccess := false, deletingId := none }
          (viewWithBounds none none 5)).2 = [] := by
  obtain ⟨hcalls, hnan, hcontrast⟩ :=
    form_submit_no_numeric_validation "u1" none formStNaN "t0"
  constructor
  · rw [hcalls, show jsParseFloat formStNaN.value = JSNum.nan from hnan]
    rfl
  · exact hcontrast none
      { measurements := [], error := none, editingId := some "m1", editValue := "abc",
        updateSuccess := false, deletingId := none }
      (viewWithBounds none none 5) hnan

/-- Explicit form of the query loadMeasurements builds: supplier equality
and descending order always, each optional clause present exactly when the
filter string is non-empty. -/
theorem buildMeasurementsQuery_eq :
    ∀ (uid : String) (f : ListFilters),
      buildMeasurementsQuery uid f =
        { eqSupplierId := uid
          orderMeasuredAtDescending := true
          gteMeasuredAt := if f.startDate ≠ "" then some f.startDate else none
          lteMeasuredAt := if f.endDate ≠ "" then some f.endDate else none
          eqParameterId := if f.parameter ≠ "" then some f.parameter else none } := by
  intro uid f
  rw [buildMeasurementsQuery]
  by_cases h1 : f.startDate = "" <;> by_cases h2 : f.endDate = "" <;>
    by_cases h3 : f.parameter = "" <;> simp [h1, h2, h3]

/-- The built query's row predicate, spelt out: supplier equality plus the
inclusive date bounds and the parameter equality, each only when the
corresponding filter is set. -/
theorem rowMatchesQuery_build_iff :
    ∀ (uid : String) (f : ListFilters) (r : DbMeasurementJoined),
      rowMatchesQuery (buildMeasurementsQuery uid f) r = true ↔
        (r.supplier_id = uid ∧
          (f.startDate ≠ "" → f.startDate ≤ r.measured_at) ∧
          (f.endDate ≠ "" → r.measured_at ≤ f.endDate) ∧
          (f.parameter ≠ "" → r.parameter_id = f.parameter)) := by
  intro uid f r
  rw [buildMeasurementsQuery_eq]
  by_cases h1 : f.startDate = "" <;> by_cases h2 : f.endDate = "" <;>
    by_cases h3 : f.parameter = "" <;>
      simp [rowMatchesQuery, h1, h2, h3, and_assoc]

/-- Membership in the server result of the built query. -/
theorem mem_runMeasurementsQuery :
    ∀ (db : List DbMeasurementJoined) (uid : String) (f : ListFilters)
      (r : DbMeasurementJoined),
      r ∈ runMeasurementsQuery db (buildMeasurementsQuery uid f) ↔
        r ∈ db ∧ rowMatchesQuery (buildMeasurementsQuery uid f) r = true := by
  intro db uid f r
  have horder : (buildMeasurementsQuery uid f).orderMeasuredAtDescending = true := by
    rw [buildMeasurementsQuery_eq]
  rw [runMeasurementsQuery]
  simp only [horder, if_true]
  rw [List.mem_insertionSort, List.mem_filter]

/-- The server result of the built query is sorted by `measured_at`
descending. -/
theorem runMeasurementsQuery_sorted :
    ∀ (db : List DbMeasurementJoined) (uid : String) (f : ListFilters),
      List.Sorted measuredDesc (runMeasurementsQuery db (buildMeasurementsQuery uid f)) := by
  intro db uid f
  have horder : (buildMeasurementsQuery uid f).orderMeasuredAtDescending = true := by
    rw [buildMeasurementsQuery_eq]
  rw [runMeasurementsQuery]
  simp only [horder, if_true]
  exact List.sorted_insertionSort measuredDesc _

/-- C9: every load restricts rows server-side to the identity's
supplier_id and orders them by `measured_at` descending; the start/end
date filters are applied as inclusive bounds on `measured_at` and the
parameter filter as an equality on `parameter_id`, each only when the
corresponding filter field is non-empty; the status filter is applied
client-side after the fetch. -/
theorem measurement_list_query_construction :
    ∀ (uid : String) (f : ListFilters) (db : List DbMeasurementJoined)
      (st : MeasurementListState),
      (buildMeasurementsQuery uid f =
        { eqSupplierId := uid
          orderMeasuredAtDescending := true
          gteMeasuredAt := if f.startDate ≠ "" then some f.startDate else none
          lteMeasuredAt := if f.endDate ≠ "" then some f.endDate else none
          eqParameterId := if f.parameter ≠ "" then some f.parameter else none }) ∧
      (∀ v : MeasurementView,
        v ∈ (loadMeasurements db (some uid) none f st).measurements ↔
          ((∃ r, r ∈ db ∧ projectView r = v ∧ r.supplier_id = uid ∧
              (f.startDate ≠ "" → f.startDate ≤ r.measured_at) ∧
              (f.endDate ≠ "" → r.measured_at ≤ f.endDate) ∧
              (f.parameter ≠ "" → r.parameter_id = f.parameter)) ∧
            (f.status = StatusFilter.within → statusFilterWithin v = true) ∧
            (f.status = StatusFilter.outside → statusFilterWithin v = false))) ∧
      List.Sorted (fun a b : MeasurementView => b.measured_at ≤ a.measured_at)
        (loadMeasurements db (some uid) none f st).measurements := by
  intro uid f db st
  have hmemrun : ∀ v : MeasurementView,
      (v ∈ (runMeasurementsQuery db (buildMeasurementsQuery uid f)).map projectView ↔
        ∃ r, r ∈ db ∧ projectView r = v ∧ r.supplier_id = uid ∧
          (f.startDate ≠ "" → f.startDate ≤ r.measured_at) ∧
          (f.endDate ≠ "" → r.measured_at ≤ f.endDate) ∧
          (f.parameter ≠ "" → r.parameter_id = f.parameter)) := by
    intro v
    rw [List.mem_map]
    constructor
    · rintro ⟨r, hr, hv⟩
      rcases (mem_runMeasurementsQuery db uid f r).mp hr with ⟨hdb, hq⟩
      rcases (rowMatchesQuery_build_iff uid f r).mp hq with ⟨hs, h1, h2, h3⟩
      exact ⟨r, hdb, hv, hs, h1, h2, h3⟩
    · rintro ⟨r, hdb, hv, hs, h1, h2, h3⟩
      exact ⟨r, (mem_runMeasurementsQuery db uid f r).mpr
        ⟨hdb, (rowMatchesQuery_build_iff uid f r).mpr ⟨hs, h1, h2, h3⟩⟩, hv⟩
  have hsortedmap : List.Sorted (fun a b : MeasurementView => b.measured_at ≤ a.measured_at)
      ((runMeasurementsQuery db (buildMeasurementsQuery uid f)).map projectView) :=
    List.Pairwise.map projectView (fun _ _ h => h) (runMeasurementsQuery_sorted db uid f)
  refine ⟨buildMeasurementsQuery_eq uid f, ?_, ?_⟩
  · intro v
    cases hst : f.status with
    | all =>
      simp only [loadMeasurements, hst]
      simp [hmemrun v]
    | within =>
      simp only [loadMeasurements, hst]
      simp [List.mem_filter, hmemrun v]
    | outside =>
      simp only [loadMeasurements, hst]
      simp [List.mem_filter, hmemrun v]
  · cases hst : f.status with
    | all =>
      simp only [loadMeasurements, hst]
      simpa using hsortedmap
    | within =>
      simp only [loadMeasurements, hst]
      exact List.Pairwise.filter _ hsortedmap
    | outside =>
      simp only [loadMeasurements, hst]
      exact List.Pairwise.filter _ hsortedmap

/-- A server row owned by "u1", measured on 2025-03-02. -/
def dbRow1 : DbMeasurementJoined :=
  { id := "m1"
    supplier_id := "u1"
    parameter_id := "p1"
    value := .fin 15
    measured_at := "2025-03-02T09:00:00Z"
    quality_parameters :=
      { name := "thickness", unit := "mm", min_value := some (.fin 10),
        max_value := some (.fin 20) }
    suppliers_name := "Acme" }

/-- Filters with only the start date set. -/
def fltStartOnly : ListFilters :=
  { startDate := "2025-03-01", endDate := "", parameter := "", status := .all }

/-- An initial, empty list state. -/
def emptyListState : MeasurementListState :=
  { measurements := [], error := none, editingId := none, editValue := "",
    updateSuccess := false, deletingId := none }

/-- Witness for C9: with only the start date set, the built query carries
the supplier equality, the descending order, the single inclusive lower
bound and no other clause, and the row measured after the start date is
returned. -/
theorem measurement_list_query_construction_witness :
    buildMeasurementsQuery "u1" fltStartOnly =
      { eqSupplierId := "u1"
        orderMeasuredAtDescending := true
        gteMeasuredAt := some "2025-03-01"
        lteMeasuredAt := none
        eqParameterId := none } ∧
    projectView dbRow1 ∈
      (loadMeasurements [dbRow1] (some "u1") none fltStartOnly emptyListState).measurements := by
  obtain ⟨hq, hmem, _⟩ :=
    measurement_list_query_construction "u1" fltStartOnly [dbRow1] emptyListState
  refine ⟨by rw [hq]; rfl, ?_⟩
  refine (hmem (projectView dbRow1)).mpr
    ⟨⟨dbRow1, List.mem_singleton.mpr rfl, rfl, rfl, ?_, ?_, ?_⟩, ?_, ?_⟩
  · intro _
    show ("2025-03-01" : String) ≤ "2025-03-02T09:00:00Z"
    rw [String.le_iff_toList_le]
    decide
  · intro h
    exact absurd rfl h
  · intro h
    exact absurd rfl h
  · intro h
    exact absurd h (by decide)
  · intro h
    exact absurd h (by decide)

/-- Witness for C4 at a concrete identity and row: the delete permission
evaluates to false even for the owner of the row, while the delete handler
does issue the id-restricted delete call. -/
theorem measurements_delete_never_permitted_witness :
    canDelete Table.measurements "u1" (Row.measurement mRowU1) = false ∧
      (handleDelete none emptyListState "m1").2 = [NetworkCall.deleteMeasurement "m1"] := by
  obtain ⟨h1, h2⟩ := measurements_delete_never_permitted "u1" mRowU1
  exact ⟨h1, h2 none emptyListState "m1"⟩
